import Mathlib

/-!
# Verification of the sisl timing-file reader (`sisl/io/siesta/times.py`)

Shallow embedding of `timesSileSiesta.read_data`, its declared info
attributes (`_info_attributes_`), and the file-handle / registry machinery
it relies on.  A file is modelled as a `List String` of its lines; Python
floats are modelled as exact decimal rationals (`ℚ` built with `mkRat`);
fallible operations return `Except Err`.

The base-class machinery (`readline`, `step_to`, the InfoAttr engine and
`add_sile`) lives in `sisl/io/sile.py`, which is not part of the excerpt;
those definitions are modelled from the specification and are marked as
such in their doc comments.
-/

namespace Sisl

/-! ## String helpers (Python `str.split()`, prefix/substring tests)

Kernel-friendly re-implementations over `List Char`, so that concrete
runs can be closed by `decide`/`rfl`. -/

/-- Tokenizer behind Python's `str.split()` (no argument): split on runs of
whitespace, dropping empty tokens.  `acc` holds the current token reversed. -/
def wsTokensAux : List Char → List Char → List (List Char)
  | [], acc => if acc.isEmpty then [] else [acc.reverse]
  | c :: cs, acc =>
    if c.isWhitespace then
      if acc.isEmpty then wsTokensAux cs [] else acc.reverse :: wsTokensAux cs []
    else wsTokensAux cs (c :: acc)

/-- Python `line.split()`: whitespace-delimited fields of a line. -/
def pySplit (s : String) : List String :=
  (wsTokensAux s.data []).map fun cs => String.mk cs

/-- `p` is a prefix of `s` (character lists). -/
def isPre : List Char → List Char → Bool
  | [], _ => true
  | _ :: _, [] => false
  | c :: cs, d :: ds => c == d && isPre cs ds

/-- The regexes in `_info_attributes_` are all of the form `^literal`, so a
line matches iff it starts with the literal text. -/
def startsWithS (s pat : String) : Bool :=
  isPre pat.data s.data

/-- `sub` occurs as a contiguous substring of `s` (used by `step_to`:
"a line containing the marker"). -/
def containsSub (s sub : String) : Bool :=
  go s.data
where
  go : List Char → Bool
    | [] => sub.data.isEmpty
    | l@(_ :: cs) => isPre sub.data l || go cs

/-! ## Numeric conversion (Python `int(...)` / `float(...)` on tokens) -/

/-- Value of a non-empty all-digit character list; `none` otherwise. -/
def parseDigits? : List Char → Option Nat
  | [] => none
  | cs => go cs 0
where
  go : List Char → Nat → Option Nat
    | [], acc => some acc
    | c :: cs, acc =>
      if c.isDigit then go cs (acc * 10 + (c.toNat - 48)) else none

/-- Value of a possibly-empty all-digit character list (`none` on a
non-digit); the empty list has value `0`. -/
def parseDigits0? : List Char → Option Nat
  | [] => some 0
  | cs => parseDigits? cs

/-- Python `int(token)`: optional sign followed by digits; fractional or
non-numeric text is rejected. -/
def parseInt? (s : String) : Option Int :=
  match s.data with
  | '-' :: cs => (parseDigits? cs).map fun n => -(n : Int)
  | '+' :: cs => (parseDigits? cs).map fun n => (n : Int)
  | cs => (parseDigits? cs).map fun n => (n : Int)

/-- Digits before/after a decimal point, as an exact rational
`mkRat (ip·10^k + fp) 10^k`; at least one digit must be present. -/
def parseDecCore? (cs : List Char) : Option ℚ :=
  let ip := cs.takeWhile Char.isDigit
  match cs.dropWhile Char.isDigit with
  | [] => (parseDigits? ip).map fun n => (n : ℚ)
  | '.' :: fp =>
    if ip.isEmpty && fp.isEmpty then none
    else if fp.all Char.isDigit then
      (parseDigits0? ip).bind fun i =>
        (parseDigits0? fp).map fun f =>
          mkRat (i * 10 ^ fp.length + f) (10 ^ fp.length)
    else none
  | _ => none

/-- Python `float(token)` restricted to plain decimal notation (the only
form timing files contain), as an exact rational. -/
def parseFloat? (s : String) : Option ℚ :=
  match s.data with
  | '-' :: cs => (parseDecCore? cs).map fun q => -q
  | '+' :: cs => parseDecCore? cs
  | cs => parseDecCore? cs

/-! ## Error taxonomy (spec §7) -/

/-- Failures surfaced by the reader.  `indexError` models Python's
out-of-range list access in the row loop; `malformedRow` models a failed
numeric conversion while assembling the table. -/
inductive Err where
  | missingAttribute (name : String)
  | malformedAttribute (name : String)
  | sectionNotFound (marker : String)
  | indexError
  | malformedRow
deriving DecidableEq, Repr

/-! ## Scoped file handle primitives -/

/-- Modelled from the spec: `read_line() -> optional string` — reads the
next line of the stream; end-of-stream yields the empty case (here the
empty string, as Python's `file.readline()` returns `""`), not an error.
Defined in `sisl/io/sile.py`, which is not part of the excerpt. -/
def rl : List String → String × List String
  | [] => ("", [])
  | l :: ls => (l, ls)

/-- Consume `n` lines with `rl`, returning the remaining stream. -/
def rlN : Nat → List String → List String
  | 0, ls => ls
  | n + 1, ls => rlN n (rl ls).2

/-- Modelled from the spec: `step_to(marker)` — advances line-by-line until
a line containing `marker` is consumed, returning the remaining stream;
fails with `SectionNotFound` if the marker never appears before
end-of-stream (spec §4.4).  Defined in `sisl/io/sile.py`, which is not
part of the excerpt. -/
def step_to (marker : String) : List String → Except Err (List String)
  | [] => .error (.sectionNotFound marker)
  | l :: ls => if containsSub l marker then .ok ls else step_to marker ls

/-! ## Info attributes (spec §4.3, declarations from `times.py`) -/

/-- A resolved info-attribute value: the declared extractors produce
`int` or `float` typed values. -/
inductive AttrValue where
  | int (i : Int)
  | float (q : ℚ)
deriving DecidableEq, Repr

/-- The `not_found` fallback policy of an info attribute (`"error"`,
`"info"`, `"warn"` in the source). -/
inductive NotFoundPolicy where
  | error
  | info
  | warn
deriving DecidableEq, Repr

/-- One entry of `_info_attributes_`: name, the literal text of the
`^`-anchored regex, the extractor applied to the full matched line, the
`not_found` policy and the optional default. -/
structure InfoAttr where
  name : String
  pattern : String
  extract : String → Option AttrValue
  notFound : NotFoundPolicy
  default : Option AttrValue

/-- `match.string.split()[-1]`: the last whitespace-delimited token of the
whole matched line. -/
def lastTok (s : String) : String :=
  (pySplit s).getLastD ""

/-- `_A("processors", r"^timer: Number of nodes", …int(match.string.split()[-1]), not_found="error")`. -/
def processorsAttr : InfoAttr where
  name := "processors"
  pattern := "timer: Number of nodes"
  extract := fun line => (parseInt? (lastTok line)).map AttrValue.int
  notFound := .error
  default := none

/-- `_A("threads", r"^timer: Number of threads per node", …int(…), default=1, not_found="info")`. -/
def threadsAttr : InfoAttr where
  name := "threads"
  pattern := "timer: Number of threads per node"
  extract := fun line => (parseInt? (lastTok line)).map AttrValue.int
  notFound := .info
  default := some (.int 1)

/-- `_A("processor_reference", r"^timer: Times refer to node", …int(…), not_found="error")`. -/
def processor_referenceAttr : InfoAttr where
  name := "processor_reference"
  pattern := "timer: Times refer to node"
  extract := fun line => (parseInt? (lastTok line)).map AttrValue.int
  notFound := .error
  default := none

/-- `_A("wall_clock", r"^timer: Total elapsed wall-clock", …float(…), not_found="error")`. -/
def wall_clockAttr : InfoAttr where
  name := "wall_clock"
  pattern := "timer: Total elapsed wall-clock"
  extract := fun line => (parseFloat? (lastTok line)).map AttrValue.float
  notFound := .error
  default := none

/-- The `_info_attributes_` list of `timesSileSiesta`. -/
def info_attributes : List InfoAttr :=
  [processorsAttr, threadsAttr, processor_referenceAttr, wall_clockAttr]

/-- Modelled from the spec: the Info Attribute Engine's single-attribute
scan (spec §4.3), defined in `sisl/io/sile.py` which is not part of the
excerpt.  Scan the file for the first line matching the pattern; on a
match apply the extractor, failing with `MalformedAttribute` if conversion
fails (fallback never applies to a matched line); if no line matches,
apply the fallback policy: `error` fails with `MissingAttribute(name)`,
otherwise the declared default is used (`MissingAttribute` if none). -/
def resolveAttr (lines : List String) (a : InfoAttr) : Except Err AttrValue :=
  match lines.find? (fun l => startsWithS l a.pattern) with
  | some l =>
    match a.extract l with
    | some v => .ok v
    | none => .error (.malformedAttribute a.name)
  | none =>
    match a.notFound with
    | .error => .error (.missingAttribute a.name)
    | _ =>
      match a.default with
      | some d => .ok d
      | none => .error (.missingAttribute a.name)

/-- The per-handle cache of resolved attribute values (spec: InfoAttrCache). -/
structure InfoCache where
  resolved : List (String × AttrValue)
deriving DecidableEq, Repr

/-- Lookup of a name in the cache. -/
def cacheLookup : List (String × AttrValue) → String → Option AttrValue
  | [], _ => none
  | (k, v) :: rest, n => if k = n then some v else cacheLookup rest n

/-- Modelled from the spec: lazy cached attribute access (spec §4.3),
defined in `sisl/io/sile.py` which is not part of the excerpt.  On first
access the file is scanned and the value cached; later accesses return
the cached value without I/O.  The returned `Bool` records whether the
file was scanned by this access. -/
def readAttr (lines : List String) (attrs : List InfoAttr) (c : InfoCache)
    (name : String) : Except Err (AttrValue × InfoCache × Bool) :=
  match cacheLookup c.resolved name with
  | some v => .ok (v, c, false)
  | none =>
    match attrs.find? (fun a => a.name = name) with
    | none => .error (.missingAttribute name)
    | some a =>
      match resolveAttr lines a with
      | .ok v => .ok (v, ⟨(name, v) :: c.resolved⟩, true)
      | .error e => .error e

/-! ## Format registry (spec §4.1, registration call from `times.py`) -/

/-- The (extension, format tag, compression) identity of a handler. -/
structure FormatKey where
  ext : String
  tag : Option String
  compressed : Bool
deriving DecidableEq, Repr

/-- Modelled from the spec: the process-wide Format Registry
(spec §3, §4.1), defined in `sisl/io/sile.py` which is not part of the
excerpt; `H` is the handler-constructor type. -/
structure Registry (H : Type) where
  entries : List (FormatKey × H)

/-- Modelled from the spec: `register(key, constructor)` / `add_sile` —
inserts or overwrites the mapping for `key`; no error on overwrite
(last registration wins). -/
def add_sile {H : Type} (r : Registry H) (k : FormatKey) (h : H) : Registry H :=
  ⟨(k, h) :: r.entries.filter fun e => !decide (e.1 = k)⟩

/-- Modelled from the spec: `resolve` — the handler constructor registered
for a key, if any. -/
def resolveKey {H : Type} (r : Registry H) (k : FormatKey) : Option H :=
  (r.entries.find? fun e => decide (e.1 = k)).map Prod.snd

/-- Number of registry entries stored under a key. -/
def countKey {H : Type} (r : Registry H) (k : FormatKey) : Nat :=
  r.entries.countP fun e => decide (e.1 = k)

/-! ## The row-accumulation loop and `read_data` (from `times.py`) -/

/-- `cols[i]`: Python list indexing, raising `IndexError` out of range. -/
def getCol (cols : List String) (i : Nat) : Except Err String :=
  match cols.get? i with
  | some s => .ok s
  | none => .error .indexError

/-- The raw (string-valued) columns accumulated by the loop of
`read_data`: `routines`, `calls`, `comm`, `times`, `imbalance` take
columns 0, 1, 2, 4 and 6 of each data line. -/
structure RawRows where
  routines : List String
  calls : List String
  comm : List String
  times : List String
  imbalance : List String
deriving DecidableEq, Repr

/-- The empty accumulator. -/
def RawRows.nil : RawRows := ⟨[], [], [], [], []⟩

/-- Prepend one data row (columns 0, 1, 2, 4, 6 of a line). -/
def RawRows.cons (r0 c1 c2 c4 c6 : String) (rr : RawRows) : RawRows :=
  ⟨r0 :: rr.routines, c1 :: rr.calls, c2 :: rr.comm, c4 :: rr.times,
    c6 :: rr.imbalance⟩

/-- The `while len(cols := rl().split()) > 1` loop of `read_data`:
read a line (end-of-stream yields `""` via `rl`), split it; stop when it
has at most one field; stop (consuming the line) when its first field is
`"MPI"`; otherwise record columns 0, 1, 2, 4, 6 — an out-of-range access
raises `IndexError` — and continue.  Returns the accumulated raw columns
and the unconsumed remainder of the stream. -/
def readRows : List String → Except Err (RawRows × List String)
  | [] => .ok (.nil, [])
  | l :: rest =>
    let cols := pySplit l
    if 1 < cols.length then
      if cols.headD "" = "MPI" then .ok (.nil, rest)
      else do
        let c1 ← getCol cols 1
        let c2 ← getCol cols 2
        let c4 ← getCol cols 4
        let c6 ← getCol cols 6
        let (rr, rest') ← readRows rest
        .ok (.cons (cols.headD "") c1 c2 c4 c6 rr, rest')
    else .ok (.nil, rest)

/-- The structured result of `read_data`: per-routine rows (typed fields)
plus the broadcast coordinate axes taken from the info attributes. -/
structure TimesRecord where
  routines : List String
  calls : List Int
  comm : List ℚ
  time : List ℚ
  imbalance : List ℚ
  processors : AttrValue
  threads : AttrValue
deriving DecidableEq, Repr

/-- `int(...)` conversion of one accumulated column entry (numpy `arrayi`);
failure is a malformed row. -/
def colInt (s : String) : Except Err Int :=
  match parseInt? s with
  | some i => .ok i
  | none => .error .malformedRow

/-- `float(...)` conversion of one accumulated column entry (numpy
`arrayd`); failure is a malformed row. -/
def colFloat (s : String) : Except Err ℚ :=
  match parseFloat? s with
  | some q => .ok q
  | none => .error .malformedRow

/-- `timesSileSiesta.read_data` on a file given as its list of lines:
skip the fixed ten-line preamble, `step_to("Program")`, skip the column
header, run the row loop, convert the columns (`arrayd` over all four
lists, then `arrayi(calls)`, `arrayd(comm)`, `arrayd(times)`,
`arrayd(imbalance)`), and attach the `processors` and `threads` info
attributes as coordinate axes. -/
def read_data (file : List String) : Except Err TimesRecord := do
  let s := rlN 10 file
  let s ← step_to "Program" s
  let s := (rl s).2
  let (raw, _) ← readRows s
  let _ ← raw.calls.mapM colFloat
  let _ ← raw.comm.mapM colFloat
  let _ ← raw.times.mapM colFloat
  let _ ← raw.imbalance.mapM colFloat
  let calls ← raw.calls.mapM colInt
  let comm ← raw.comm.mapM colFloat
  let time ← raw.times.mapM colFloat
  let imbalance ← raw.imbalance.mapM colFloat
  let processors ← resolveAttr file processorsAttr
  let threads ← resolveAttr file threadsAttr
  .ok ⟨raw.routines, calls, comm, time, imbalance, processors, threads⟩

/-! ## Derived descriptions of the loop's behaviour -/

/-- The raw columns the loop accumulates for a list of data lines:
columns 0, 1, 2, 4 and 6 of each. -/
def rowsOf (pre : List String) : RawRows where
  routines := pre.map fun l => (pySplit l).headD ""
  calls := pre.map fun l => (pySplit l).getD 1 ""
  comm := pre.map fun l => (pySplit l).getD 2 ""
  times := pre.map fun l => (pySplit l).getD 4 ""
  imbalance := pre.map fun l => (pySplit l).getD 6 ""

/-- A line the loop treats as a data row without failing: at least the
seven accessed columns, first field not the `"MPI"` sentinel. -/
def IsDataLine (l : String) : Prop :=
  7 ≤ (pySplit l).length ∧ (pySplit l).headD "" ≠ "MPI"

/-- A line on which the loop stops: fewer than two fields, or first field
`"MPI"`. -/
def IsTermLine (l : String) : Prop :=
  (pySplit l).length ≤ 1 ∨
    ((pySplit l).headD "" = "MPI" ∧ 1 < (pySplit l).length)

/-- In-range list indexing succeeds with the indexed element. -/
theorem getCol_eq (cols : List String) (i : Nat) (h : i < cols.length) :
    getCol cols i = .ok (cols.getD i "") := by
  rcases hg : cols.get? i with _ | s
  · exact absurd (List.get?_eq_none.mp hg) (by omega)
  · simp only [getCol, List.getD, hg, Option.getD]

/-- Unfolding the loop on a data line: the line's columns 0, 1, 2, 4, 6
are prepended to whatever the loop produces on the rest. -/
theorem readRows_cons_data (l : String) (rest : List String)
    (h7 : 7 ≤ (pySplit l).length) (hm : (pySplit l).headD "" ≠ "MPI") :
    readRows (l :: rest) =
      match readRows rest with
      | .ok (rr, r) =>
        .ok (.cons ((pySplit l).headD "") ((pySplit l).getD 1 "")
          ((pySplit l).getD 2 "") ((pySplit l).getD 4 "")
          ((pySplit l).getD 6 "") rr, r)
      | .error e => .error e := by
  have h1 : 1 < (pySplit l).length := by omega
  simp only [readRows, if_pos h1, if_neg hm,
    getCol_eq (pySplit l) 1 (by omega), getCol_eq (pySplit l) 2 (by omega),
    getCol_eq (pySplit l) 4 (by omega), getCol_eq (pySplit l) 6 (by omega)]
  cases hr : readRows rest with
  | ok p => cases p; rfl
  | error e => rfl

/-- The loop consumes a terminating line and stops, leaving the rest of
the stream unread. -/
theorem readRows_cons_term (t : String) (rest : List String)
    (ht : IsTermLine t) : readRows (t :: rest) = .ok (.nil, rest) := by
  rcases ht with h | ⟨hm, h1⟩
  · have h' : ¬ 1 < (pySplit t).length := by omega
    simp only [readRows, if_neg h']
  · simp only [readRows, if_pos h1, if_pos hm]

/-- `step_to` fails with `SectionNotFound` when no line contains the
marker. -/
theorem step_to_none (marker : String) (ls : List String)
    (h : ∀ l ∈ ls, containsSub l marker = false) :
    step_to marker ls = .error (.sectionNotFound marker) := by
  induction ls with
  | nil => rfl
  | cons l ls ih =>
    have hl : containsSub l marker = false := h l (by simp)
    simp [step_to, hl]
    exact ih fun x hx => h x (by simp [hx])

/-- Skipping `n` lines with `rl` is `List.drop n`. -/
theorem rlN_eq_drop (n : Nat) (ls : List String) : rlN n ls = ls.drop n := by
  induction n generalizing ls with
  | zero => rfl
  | succ n ih => cases ls <;> simp [rlN, rl, ih]

instance (l : String) : Decidable (IsDataLine l) := by
  unfold IsDataLine; infer_instance

instance (l : String) : Decidable (IsTermLine l) := by
  unfold IsTermLine; infer_instance

/-- Out-of-range list indexing raises `IndexError`. -/
theorem getCol_none (cols : List String) (i : Nat) (h : cols.length ≤ i) :
    getCol cols i = .error .indexError := by
  simp only [getCol, List.get?_eq_none.mpr h]

/-- Registering a handler stores exactly one entry under its key. -/
theorem countKey_add_sile_self {H : Type} (r : Registry H) (k : FormatKey)
    (h : H) : countKey (add_sile r k h) k = 1 := by
  simp only [countKey, add_sile, List.countP_cons, decide_True]
  have h0 : (r.entries.filter fun e => !decide (e.1 = k)).countP
      (fun e => decide (e.1 = k)) = 0 := by
    rw [List.countP_eq_zero]
    intro a ha
    rcases List.mem_filter.mp ha with ⟨-, hq⟩
    simpa using hq
  simp [h0]

/-- Registering a handler does not increase the entry count of other keys. -/
theorem countKey_add_sile_other {H : Type} (r : Registry H) (k k' : FormatKey)
    (h : H) (hne : k' ≠ k) :
    countKey (add_sile r k h) k' ≤ countKey r k' := by
  simp only [countKey, add_sile, List.countP_cons]
  have h0 : decide ((k, h).1 = k') = false := by
    simp only [decide_eq_false_iff_not]
    exact fun hk => hne hk.symm
  rw [h0]
  simpa using (List.filter_sublist r.entries).countP_le
    (fun e => decide (e.1 = k'))

/-- The timing file of the spec's example scenario, verbatim: the
six-field data row `"hop  10  0.01  0.45  3  0.02"` followed by a blank
line. -/
def specExampleFile : List String :=
  ["",
   "timer: Number of nodes = 4",
   "timer: Number of threads per node = 2",
   "timer: Times refer to node 0",
   "timer: Total elapsed wall-clock time 12.5",
   "timer: CPU times:",
   "", "", "", "",
   "Program times:",
   "Name Calls CommTime CommRatio TotTime TotRatio Imbalance",
   "hop  10  0.01  0.45  3  0.02",
   ""]

/-- The spec's example scenario with a full seven-column data row, placing
`0.45` in column index 4 and `0.02` in column index 6 — the positions
`read_data` actually reads. -/
def specExampleFileFixed : List String :=
  ["",
   "timer: Number of nodes = 4",
   "timer: Number of threads per node = 2",
   "timer: Times refer to node 0",
   "timer: Total elapsed wall-clock time 12.5",
   "timer: CPU times:",
   "", "", "", "",
   "Program times:",
   "Name Calls CommTime CommRatio TotTime TotRatio Imbalance",
   "hop  10  0.01  0.30  0.45  3  0.02",
   ""]

/-- The four `timer:` header lines used to exercise attribute resolution. -/
def timerHeader : List String :=
  ["timer: Number of nodes = 4",
   "timer: Number of threads per node = 2",
   "timer: Times refer to node 0",
   "timer: Total elapsed wall-clock time 12.5"]

/-! ## Claim theorems -/

/-- C1 (counterexample): on the spec's example file — whose data row
`"hop  10  0.01  0.45  3  0.02"` has only six whitespace-delimited
fields — `read_data` does not return a one-row record; it fails with an
out-of-range column access, because the loop reads column index 6 of
every data line. -/
theorem read_data_six_field_row_index_error :
    read_data specExampleFile = .error .indexError := by rfl

/-- C1 (amended): with the data row carrying the full seven columns the
loop reads — `"hop  10  0.01  0.30  0.45  3  0.02"`, so that `0.45` sits
at column index 4 and `0.02` at column index 6 — `read_data` returns
exactly one row keyed by routine name `"hop"` with calls = 10,
comm = 0.01, time = 0.45, imbalance = 0.02, and coordinate axes
processors = 4 and threads = 2. -/
theorem read_data_seven_field_row_ok :
    read_data specExampleFileFixed =
      .ok ⟨["hop"], [10], [mkRat 1 100], [mkRat 45 100], [mkRat 2 100],
        .int 4, .int 2⟩ := by rfl

/-- C2: the row-accumulation loop stops exactly at the first line with
fewer than two whitespace-delimited fields or whose first field is the
sentinel `"MPI"`: every data row before that line is accumulated
(columns 0, 1, 2, 4, 6), the terminating line is consumed, and nothing
at or after it is read. -/
theorem readRows_stops_at_terminator (pre : List String) (t : String)
    (post : List String) (hpre : ∀ l ∈ pre, IsDataLine l)
    (ht : IsTermLine t) :
    readRows (pre ++ t :: post) = .ok (rowsOf pre, post) := by
  induction pre with
  | nil => exact readRows_cons_term t post ht
  | cons l pre ih =>
    have hl := hpre l (by simp)
    rw [List.cons_append, readRows_cons_data l _ hl.1 hl.2,
      ih fun x hx => hpre x (by simp [hx])]
    rfl

/-- Witness for C2 at a concrete body: one data row, a blank terminator,
one unread line after it. -/
theorem readRows_stops_at_terminator_witness :
    readRows ["a 1 2 3 4 5 6", "", "x 9 9 9 9 9 9"] =
      .ok (rowsOf ["a 1 2 3 4 5 6"], ["x 9 9 9 9 9 9"]) :=
  readRows_stops_at_terminator ["a 1 2 3 4 5 6"] "" ["x 9 9 9 9 9 9"]
    (by decide) (by decide)

/-- C8: `rl` at end-of-stream yields the empty case (`""`) rather than an
error, so a body whose data rows run to end-of-stream with no sentinel
line makes the loop terminate at end-of-stream with exactly the rows read
before it. -/
theorem readRows_runs_to_eof (body : List String)
    (h : ∀ l ∈ body, IsDataLine l) :
    rl [] = ("", []) ∧ readRows body = .ok (rowsOf body, []) := by
  refine ⟨rfl, ?_⟩
  induction body with
  | nil => rfl
  | cons l rest ih =>
    have hl := h l (by simp)
    rw [readRows_cons_data l rest hl.1 hl.2,
      ih fun x hx => h x (by simp [hx])]
    rfl

/-- Witness for C8 at a concrete body of two data rows and no sentinel. -/
theorem readRows_runs_to_eof_witness :
    rl [] = ("", []) ∧
    readRows ["a 1 2 3 4 5 6", "b 7 8 9 10 11 12"] =
      .ok (rowsOf ["a 1 2 3 4 5 6", "b 7 8 9 10 11 12"], []) :=
  readRows_runs_to_eof ["a 1 2 3 4 5 6", "b 7 8 9 10 11 12"] (by decide)

/-- C9: a line inside the loop with at least two but fewer than seven
fields whose first field is not `"MPI"` is treated as data, and the loop
fails with an out-of-range column access (the loop reads columns 1, 2, 4
and 6) instead of terminating or appending a row. -/
theorem readRows_short_row_index_error (pre : List String) (bad : String)
    (post : List String) (hpre : ∀ l ∈ pre, IsDataLine l)
    (h2 : 2 ≤ (pySplit bad).length) (h7 : (pySplit bad).length < 7)
    (hm : (pySplit bad).headD "" ≠ "MPI") :
    readRows (pre ++ bad :: post) = .error .indexError := by
  induction pre with
  | nil =>
    have h1 : 1 < (pySplit bad).length := by omega
    rw [List.nil_append]
    simp only [readRows, if_pos h1, if_neg hm,
      getCol_eq (pySplit bad) 1 (by omega)]
    by_cases hc2 : 2 < (pySplit bad).length
    · simp only [getCol_eq (pySplit bad) 2 (by omega)]
      by_cases hc4 : 4 < (pySplit bad).length
      · simp only [getCol_eq (pySplit bad) 4 (by omega),
          getCol_none (pySplit bad) 6 (by omega)]
        rfl
      · simp only [getCol_none (pySplit bad) 4 (by omega)]
        rfl
    · simp only [getCol_none (pySplit bad) 2 (by omega)]
      rfl
  | cons l pre ih =>
    have hl := hpre l (by simp)
    rw [List.cons_append, readRows_cons_data l _ hl.1 hl.2,
      ih fun x hx => hpre x (by simp [hx])]

/-- Witness for C9: the spec's own six-field row after one valid data
row makes the loop fail with an index error. -/
theorem readRows_short_row_index_error_witness :
    readRows ["a 1 2 3 4 5 6", "hop  10  0.01  0.45  3  0.02"] =
      .error .indexError :=
  readRows_short_row_index_error ["a 1 2 3 4 5 6"]
    "hop  10  0.01  0.45  3  0.02" [] (by decide) (by decide) (by decide)
    (by decide)

/-- C3: when no line of the file body (the lines after the ten-line fixed
preamble) contains the section marker `"Program"`, `read_data` fails with
`SectionNotFound` instead of returning a record. -/
theorem read_data_no_program_section (file : List String)
    (h : ∀ l ∈ file.drop 10, containsSub l "Program" = false) :
    read_data file = .error (.sectionNotFound "Program") := by
  have hs : step_to "Program" (rlN 10 file) =
      .error (.sectionNotFound "Program") := by
    rw [rlN_eq_drop]
    exact step_to_none _ _ h
  simp only [read_data, hs]
  rfl

/-- Witness for C3: a twelve-line file with no `"Program"` marker. -/
theorem read_data_no_program_section_witness :
    read_data ["", "a", "b", "c", "d", "e", "f", "g", "h", "i", "j", "k"] =
      .error (.sectionNotFound "Program") :=
  read_data_no_program_section
    ["", "a", "b", "c", "d", "e", "f", "g", "h", "i", "j", "k"] (by decide)

/-- C4: on a file with no line matching an attribute's pattern, the
attributes with `not_found="error"` (`processors`, `processor_reference`,
`wall_clock`) fail with `MissingAttribute(name)`, while `threads`, whose
policy supplies the default `1`, resolves to exactly that default. -/
theorem resolveAttr_fallback_policies (lines : List String) :
    ((∀ l ∈ lines, startsWithS l "timer: Number of nodes" = false) →
      resolveAttr lines processorsAttr =
        .error (.missingAttribute "processors")) ∧
    ((∀ l ∈ lines, startsWithS l "timer: Times refer to node" = false) →
      resolveAttr lines processor_referenceAttr =
        .error (.missingAttribute "processor_reference")) ∧
    ((∀ l ∈ lines, startsWithS l "timer: Total elapsed wall-clock" = false) →
      resolveAttr lines wall_clockAttr =
        .error (.missingAttribute "wall_clock")) ∧
    ((∀ l ∈ lines, startsWithS l "timer: Number of threads per node" = false) →
      resolveAttr lines threadsAttr = .ok (.int 1)) := by
  have hp : ∀ (P : String), (∀ l ∈ lines, startsWithS l P = false) →
      lines.find? (fun l => startsWithS l P) = none := fun P h =>
    List.find?_eq_none.mpr fun x hx => by simp [h x hx]
  refine ⟨fun h => ?_, fun h => ?_, fun h => ?_, fun h => ?_⟩ <;>
    · simp only [resolveAttr, processorsAttr, processor_referenceAttr,
        wall_clockAttr, threadsAttr, hp _ h]

/-- Witness for C4 on a one-line file matching no pattern. -/
theorem resolveAttr_fallback_policies_witness :
    resolveAttr ["no timer lines here"] processorsAttr =
      .error (.missingAttribute "processors") ∧
    resolveAttr ["no timer lines here"] processor_referenceAttr =
      .error (.missingAttribute "processor_reference") ∧
    resolveAttr ["no timer lines here"] wall_clockAttr =
      .error (.missingAttribute "wall_clock") ∧
    resolveAttr ["no timer lines here"] threadsAttr = .ok (.int 1) :=
  ⟨(resolveAttr_fallback_policies _).1 (by decide),
   (resolveAttr_fallback_policies _).2.1 (by decide),
   (resolveAttr_fallback_policies _).2.2.1 (by decide),
   (resolveAttr_fallback_policies _).2.2.2 (by decide)⟩

/-- C5: for every info attribute — whatever its fallback policy or
default — if some line matches the pattern but the extractor's type
conversion fails, resolution fails with `MalformedAttribute`; the
fallback is never applied to a matched-but-malformed line. -/
theorem resolveAttr_malformed_fatal (a : InfoAttr) (lines : List String)
    (l : String)
    (hfind : lines.find? (fun s => startsWithS s a.pattern) = some l)
    (hext : a.extract l = none) :
    resolveAttr lines a = .error (.malformedAttribute a.name) := by
  simp only [resolveAttr, hfind, hext]

/-- Witness for C5: `threads` has a declared default, yet a matching line
with non-numeric text (`int("two")` fails) is fatal, not defaulted. -/
theorem resolveAttr_malformed_fatal_witness :
    resolveAttr ["timer: Number of threads per node = two"] threadsAttr =
      .error (.malformedAttribute "threads") :=
  resolveAttr_malformed_fatal threadsAttr
    ["timer: Number of threads per node = two"]
    "timer: Number of threads per node = two" (by rfl) (by rfl)

/-- C6: reading an attribute that a previous read resolved (the cache the
first read produced) returns the identical value and the identical cache,
and performs no scan of the file (`false` flag), whatever the attribute
and however the first read resolved it. -/
theorem readAttr_idempotent (lines : List String) (attrs : List InfoAttr)
    (c : InfoCache) (name : String) (v : AttrValue) (c' : InfoCache)
    (b : Bool) (h : readAttr lines attrs c name = .ok (v, c', b)) :
    readAttr lines attrs c' name = .ok (v, c', false) := by
  unfold readAttr at h ⊢
  rcases hc : cacheLookup c.resolved name with _ | w
  · simp only [hc] at h
    rcases hf : attrs.find? (fun a => a.name = name) with _ | a
    · simp only [hf] at h
      exact Except.noConfusion h
    · simp only [hf] at h
      rcases hr : resolveAttr lines a with e | w
      · simp only [hr] at h
        exact Except.noConfusion h
      · simp only [hr, Except.ok.injEq, Prod.mk.injEq] at h
        obtain ⟨hv, hcache, -⟩ := h
        subst hv
        subst hcache
        simp [cacheLookup]
  · simp only [hc, Except.ok.injEq, Prod.mk.injEq] at h
    obtain ⟨hv, hcache, -⟩ := h
    subst hv
    subst hcache
    rw [hc]

/-- Witness for C6: after a first read of `processors` scans the file and
caches `4`, a second read returns the same value and cache without
scanning. -/
theorem readAttr_idempotent_witness :
    readAttr ["timer: Number of nodes = 4"] info_attributes
      ⟨[("processors", .int 4)]⟩ "processors" =
      .ok (.int 4, ⟨[("processors", .int 4)]⟩, false) :=
  readAttr_idempotent ["timer: Number of nodes = 4"] info_attributes
    ⟨[]⟩ "processors" (.int 4) ⟨[("processors", .int 4)]⟩ true (by rfl)

/-- C7: registering a second handler under an identical `FormatKey`
replaces the first without error — resolving that key afterwards returns
the second handler — and re-registration keeps the registry holding at
most one handler per distinct key. -/
theorem add_sile_override {H : Type} (r : Registry H) (k : FormatKey)
    (h1 h2 : H) (hinv : ∀ u, countKey r u ≤ 1) :
    resolveKey (add_sile (add_sile r k h1) k h2) k = some h2 ∧
    ∀ u, countKey (add_sile (add_sile r k h1) k h2) u ≤ 1 := by
  constructor
  · simp only [resolveKey, add_sile]
    rw [List.find?_cons_of_pos _ (by simp)]
    rfl
  · intro u
    by_cases hu : u = k
    · subst hu
      rw [countKey_add_sile_self]
    · calc countKey (add_sile (add_sile r k h1) k h2) u
          ≤ countKey (add_sile r k h1) u :=
            countKey_add_sile_other _ _ _ _ hu
        _ ≤ countKey r u := countKey_add_sile_other _ _ _ _ hu
        _ ≤ 1 := hinv u

/-- Witness for C7: starting from an empty registry, registering two
handlers under the key of `add_sile("TIMES", …, gzip=True)` resolves to
the second and keeps at most one entry for that key. -/
theorem add_sile_override_witness :
    resolveKey (add_sile (add_sile (⟨[]⟩ : Registry String)
        ⟨"TIMES", none, true⟩ "timesSileSiesta_v1")
        ⟨"TIMES", none, true⟩ "timesSileSiesta_v2")
      ⟨"TIMES", none, true⟩ = some "timesSileSiesta_v2" ∧
    countKey (add_sile (add_sile (⟨[]⟩ : Registry String)
        ⟨"TIMES", none, true⟩ "timesSileSiesta_v1")
        ⟨"TIMES", none, true⟩ "timesSileSiesta_v2")
      ⟨"TIMES", none, true⟩ ≤ 1 :=
  ⟨(add_sile_override ⟨[]⟩ ⟨"TIMES", none, true⟩ "timesSileSiesta_v1"
      "timesSileSiesta_v2" fun _ => Nat.zero_le 1).1,
   (add_sile_override ⟨[]⟩ ⟨"TIMES", none, true⟩ "timesSileSiesta_v1"
      "timesSileSiesta_v2" fun _ => Nat.zero_le 1).2 ⟨"TIMES", none, true⟩⟩

/-- C10: for each of the four declared info attributes, the resolved value
is the `int`/`float` conversion of the last whitespace-delimited token of
the entire first line matching the pattern (conversion failure being
`MalformedAttribute`) — the value depends on the line only through its
last token, not on the matched portion. -/
theorem resolveAttr_value_is_last_token (lines : List String) (l : String) :
    (lines.find? (fun s => startsWithS s "timer: Number of nodes") = some l →
      resolveAttr lines processorsAttr =
        match parseInt? (lastTok l) with
        | some n => .ok (.int n)
        | none => .error (.malformedAttribute "processors")) ∧
    (lines.find? (fun s =>
        startsWithS s "timer: Number of threads per node") = some l →
      resolveAttr lines threadsAttr =
        match parseInt? (lastTok l) with
        | some n => .ok (.int n)
        | none => .error (.malformedAttribute "threads")) ∧
    (lines.find? (fun s => startsWithS s "timer: Times refer to node") = some l →
      resolveAttr lines processor_referenceAttr =
        match parseInt? (lastTok l) with
        | some n => .ok (.int n)
        | none => .error (.malformedAttribute "processor_reference")) ∧
    (lines.find? (fun s =>
        startsWithS s "timer: Total elapsed wall-clock") = some l →
      resolveAttr lines wall_clockAttr =
        match parseFloat? (lastTok l) with
        | some q => .ok (.float q)
        | none => .error (.malformedAttribute "wall_clock")) := by
  refine ⟨fun h => ?_, fun h => ?_, fun h => ?_, fun h => ?_⟩ <;>
    · simp only [resolveAttr, processorsAttr, threadsAttr,
        processor_referenceAttr, wall_clockAttr, h]
      rcases parseInt? (lastTok l) with _ | n <;>
        rcases parseFloat? (lastTok l) with _ | q <;> rfl

/-- Witness for C10 on the four header lines: each attribute resolves to
the conversion of its matching line's last token. -/
theorem resolveAttr_value_is_last_token_witness :
    resolveAttr timerHeader processorsAttr = .ok (.int 4) ∧
    resolveAttr timerHeader threadsAttr = .ok (.int 2) ∧
    resolveAttr timerHeader processor_referenceAttr = .ok (.int 0) ∧
    resolveAttr timerHeader wall_clockAttr = .ok (.float (mkRat 25 2)) := by
  refine ⟨?_, ?_, ?_, ?_⟩
  · rw [(resolveAttr_value_is_last_token timerHeader
      "timer: Number of nodes = 4").1 (by rfl)]
    rfl
  · rw [(resolveAttr_value_is_last_token timerHeader
      "timer: Number of threads per node = 2").2.1 (by rfl)]
    rfl
  · rw [(resolveAttr_value_is_last_token timerHeader
      "timer: Times refer to node 0").2.2.1 (by rfl)]
    rfl
  · rw [(resolveAttr_value_is_last_token timerHeader
      "timer: Total elapsed wall-clock time 12.5").2.2.2 (by rfl)]
    rfl

end Sisl
